import Mathlib

/-
  Verification of the StockSentinel indicator / recommendation / portfolio
  core against its specification.

  Shallow embedding conventions:
  * pandas floats that can be NaN or infinite are modelled by `PFloat`
    (a rational tagged with NaN / +inf / -inf alternatives);
  * a pandas column whose leading rolling-window entries are NaN is
    modelled as `List (Option ℚ)` (none = NaN) when only the undefined /
    defined distinction matters;
  * Python functions that may raise are modelled in `Except String`;
    the error string models `str(e)`.
-/

/-- Model of an IEEE-754 style float as produced by pandas arithmetic:
either NaN, +inf, -inf, or a finite value (modelled exactly as a rational). -/
inductive PFloat where
  | nan : PFloat
  | inf : PFloat
  | ninf : PFloat
  | fin : ℚ → PFloat
deriving DecidableEq, Repr

/-- IEEE negation. -/
def pneg : PFloat → PFloat
  | .nan => .nan
  | .inf => .ninf
  | .ninf => .inf
  | .fin q => .fin (-q)

/-- IEEE addition (NaN propagates; inf + (-inf) = NaN). -/
def padd : PFloat → PFloat → PFloat
  | .nan, _ => .nan
  | _, .nan => .nan
  | .inf, .ninf => .nan
  | .ninf, .inf => .nan
  | .inf, _ => .inf
  | _, .inf => .inf
  | .ninf, _ => .ninf
  | _, .ninf => .ninf
  | .fin a, .fin b => .fin (a + b)

/-- IEEE subtraction. -/
def psub (a b : PFloat) : PFloat := padd a (pneg b)

/-- IEEE division as performed by pandas on float64:
`x/0` is ±inf for x ≠ 0 and NaN for x = 0; `x/±inf` is 0; NaN propagates.
(The sign of a zero result is not tracked; it never matters here because
all divisions in the embedded code have non-negative operands.) -/
def pdiv : PFloat → PFloat → PFloat
  | .nan, _ => .nan
  | _, .nan => .nan
  | .inf, .inf => .nan
  | .inf, .ninf => .nan
  | .ninf, .inf => .nan
  | .ninf, .ninf => .nan
  | .inf, .fin b => if b < 0 then .ninf else .inf
  | .ninf, .fin b => if b < 0 then .inf else .ninf
  | .fin _, .inf => .fin 0
  | .fin _, .ninf => .fin 0
  | .fin a, .fin b =>
    if b = 0 then (if a = 0 then .nan else if 0 < a then .inf else .ninf)
    else .fin (a / b)

/-- A pandas value that is NaN (`none`) or finite, injected into `PFloat`. -/
def pofOpt : Option ℚ → PFloat
  | none => .nan
  | some q => .fin q

/-- Extracts the values of a window when none of its entries is NaN. -/
def allSome : List (Option ℚ) → Option (List ℚ)
  | [] => some []
  | none :: _ => none
  | some x :: rest => (allSome rest).map (fun l => x :: l)

/-- `series.rolling(window=w).mean()` over a column that may contain NaN
(`none`) entries: entry `i` is defined iff the window is full
(`w ≤ i + 1`) and every entry in the trailing window of length `w` is
defined, in which case it is the window sum divided by `w`. -/
def rollingMeanO (w : Nat) (xs : List (Option ℚ)) : List (Option ℚ) :=
  (List.range xs.length).map (fun i =>
    if i + 1 < w then none
    else
      match allSome ((xs.take (i+1)).drop (i+1-w)) with
      | none => none
      | some vs => some (vs.sum / (w : ℚ)))

/-- Rolling mean of a NaN-free column. -/
def rollingMean (w : Nat) (xs : List ℚ) : List (Option ℚ) :=
  rollingMeanO w (xs.map some)

/-- `series.diff()`: entry 0 is NaN, entry i (i ≥ 1) is `x[i] - x[i-1]`. -/
def diffList : List ℚ → List (Option ℚ)
  | [] => []
  | x :: xs => none :: List.zipWith (fun prev cur => some (cur - prev)) (x :: xs) xs

/-- `delta.where(delta > 0, 0)`: pandas keeps `delta` where the condition is
true and writes 0 elsewhere; `NaN > 0` is false, so the leading NaN becomes 0. -/
def gainList (closes : List ℚ) : List ℚ :=
  (diffList closes).map (fun d => match d with
    | none => 0
    | some v => if 0 < v then v else 0)

/-- `(-delta.where(delta < 0, 0))`: keeps `delta` where negative (else 0),
then negates; the leading NaN becomes 0. -/
def lossList (closes : List ℚ) : List ℚ :=
  (diffList closes).map (fun d => match d with
    | none => 0
    | some v => if v < 0 then -v else 0)

/-- The RSI column computed by `calculate_technical_indicators`:
`rs = gain.rolling(14).mean() / loss.rolling(14).mean()`,
`RSI = 100 - 100/(1 + rs)`, with pandas float semantics. -/
def rsiList (closes : List ℚ) : List PFloat :=
  List.zipWith
    (fun g l =>
      let rs := pdiv (pofOpt g) (pofOpt l)
      psub (.fin 100) (pdiv (.fin 100) (padd (.fin 1) rs)))
    (rollingMean 14 (gainList closes))
    (rollingMean 14 (lossList closes))

/-- The DataFrame handed to `calculate_technical_indicators`: price/volume
columns plus the indicator columns the function writes (absent before the
call on a freshly fetched frame). -/
structure StockDF where
  opn : List ℚ
  high : List ℚ
  low : List ℚ
  close : List ℚ
  volume : List ℚ
  ma20 : Option (List (Option ℚ)) := none
  ma50 : Option (List (Option ℚ)) := none
  rsi : Option (List PFloat) := none
deriving DecidableEq, Repr

/-- `calculate_technical_indicators(df)` from `data_fetcher.py`: writes the
MA20, MA50 and RSI columns into the frame and returns it.  (In Python the
returned frame is the very object that was passed in, mutated in place;
the input object after the call is therefore equal to this return value.) -/
def calculate_technical_indicators (df : StockDF) : StockDF :=
  { df with
    ma20 := some (rollingMean 20 df.close)
    ma50 := some (rollingMean 50 df.close)
    rsi := some (rsiList df.close) }

/-- The same function viewed through Python's raise/return interface.
The source body contains no raise statement and no length check, so the
embedding always returns `.ok`; the `Except` wrapper makes the presence or
absence of a failure statable. -/
def computeIndicatorsE (df : StockDF) : Except String StockDF :=
  .ok (calculate_technical_indicators df)

/- ===================== ai_analyzer.py ===================== -/

/-- Python comparison `a > b` on possibly-NaN floats: any comparison with
NaN is false. -/
def qgt : Option ℚ → Option ℚ → Bool
  | some a, some b => decide (b < a)
  | _, _ => false

/-- Python comparison `a < b` on possibly-NaN floats. -/
def qlt : Option ℚ → Option ℚ → Bool
  | some a, some b => decide (a < b)
  | _, _ => false

/-- The `signals` dictionary built by `calculate_analysis`. -/
structure Signals where
  price_above_ma50 : Bool
  price_above_ma20 : Bool
  rsi_oversold : Bool
  rsi_overbought : Bool
  volume_high : Bool
deriving DecidableEq, Repr

/-- Signal derivation from the latest data points (`ai_analyzer.py`,
lines 26-32). -/
def mkSignals (current_price ma_20 ma_50 rsi volume avg_volume : Option ℚ) : Signals :=
  { price_above_ma50 := qgt current_price ma_50
    price_above_ma20 := qgt current_price ma_20
    rsi_oversold := qlt rsi (some 30)
    rsi_overbought := qgt rsi (some 70)
    volume_high := qgt volume (avg_volume.map (fun a => a * 1.2)) }

/-- The if/elif/else recommendation block of `calculate_analysis`
(`ai_analyzer.py`, lines 34-44): returns `(recommendation, risk_level)`. -/
def decide_recommendation (s : Signals) : String × String :=
  if (s.price_above_ma50 && s.price_above_ma20 && !s.rsi_overbought)
      || (s.rsi_oversold && s.volume_high) then
    ("Buy", "Medium")
  else if s.rsi_overbought || (!s.price_above_ma50 && !s.price_above_ma20) then
    ("Sell", "High")
  else
    ("Hold", "Low")

/-- The decision table exactly as the specification states it (claim C1),
evaluated top-to-bottom with first match winning.  This definition follows
the words of the spec and is compared against `decide_recommendation`,
which is translated from the source. -/
def specDecisionTable (close ma50 ma20 rsi volume avgVolume20 : ℚ) : String × String :=
  if (close > ma50 ∧ close > ma20 ∧ ¬ (rsi > 70)) ∨ (rsi < 30 ∧ volume > avgVolume20 * 1.2) then
    ("Buy", "Medium")
  else if rsi > 70 ∨ (¬ (close > ma50) ∧ ¬ (close > ma20)) then
    ("Sell", "High")
  else
    ("Hold", "Low")

/-- The analysis dictionary returned by `calculate_analysis` /
`get_stock_analysis`; `error` is the extra key present only in the
fallback dictionary. -/
structure Recommendation where
  error : Option String := none
  summary : String
  technical_analysis : String
  fundamental_analysis : String
  recommendation : String
  risk_level : String
  reasoning : String
deriving DecidableEq, Repr

/-- The DataFrame as consumed by `calculate_analysis`: each referenced
column is either absent (`none`, a KeyError on access) or a list of
possibly-NaN values. -/
structure HistData where
  close : Option (List (Option ℚ)) := none
  ma20Col : Option (List (Option ℚ)) := none
  ma50Col : Option (List (Option ℚ)) := none
  rsiCol : Option (List (Option ℚ)) := none
  volumeCol : Option (List (Option ℚ)) := none
deriving DecidableEq, Repr

/-- `hist_data[name]`: raises KeyError (whose `str` is the quoted column
name) when the column is missing. -/
def getCol (c : Option (List (Option ℚ))) (name : String) : Except String (List (Option ℚ)) :=
  match c with
  | none => .error name
  | some l => .ok l

/-- `series.iloc[-1]`: IndexError on an empty series. -/
def ilocLast (l : List (Option ℚ)) : Except String (Option ℚ) :=
  match l.getLast? with
  | none => .error "single positional indexer is out-of-bounds"
  | some v => .ok v

/-- `series.iloc[-2]`: IndexError when the series has fewer than 2 entries. -/
def ilocPrev (l : List (Option ℚ)) : Except String (Option ℚ) :=
  match l.reverse.get? 1 with
  | none => .error "single positional indexer is out-of-bounds"
  | some v => .ok v

/-- Python dict `d.get(k, dflt)` over string values. -/
def dictGetD (d : List (String × String)) (k dflt : String) : String :=
  match d with
  | [] => dflt
  | p :: rest => if p.1 = k then p.2 else dictGetD rest k dflt

/-- The latest data points extracted at the top of `calculate_analysis`
(`ai_analyzer.py`, lines 11-18), plus the close column itself (used later
for the volatility text). -/
structure LatestVals where
  closes : List (Option ℚ)
  current_price : Option ℚ
  prev_price : Option ℚ
  ma_20 : Option ℚ
  ma_50 : Option ℚ
  rsi : Option ℚ
  volume : Option ℚ
  avg_volume : Option ℚ
deriving DecidableEq, Repr

/-- The fallible extraction sequence of `calculate_analysis`, in source
order. -/
def extractVals (h : HistData) : Except String LatestVals := do
  let closeCol ← getCol h.close "\x27Close\x27"
  let current_price ← ilocLast closeCol
  let prev_price ← ilocPrev closeCol
  let ma20c ← getCol h.ma20Col "\x27MA20\x27"
  let ma_20 ← ilocLast ma20c
  let ma50c ← getCol h.ma50Col "\x27MA50\x27"
  let ma_50 ← ilocLast ma50c
  let rsic ← getCol h.rsiCol "\x27RSI\x27"
  let rsi ← ilocLast rsic
  let volc ← getCol h.volumeCol "\x27Volume\x27"
  let volume ← ilocLast volc
  let avg_volume ← ilocLast (rollingMeanO 20 volc)
  pure { closes := closeCol, current_price, prev_price, ma_20, ma_50, rsi, volume, avg_volume }

/-- Renders a possibly-NaN value in text (the 2-decimal / thousands
formatting of the Python f-strings is elided; NaN prints as pandas does). -/
def fmtOptQ : Option ℚ → String
  | none => "nan"
  | some q => toString q.num ++ "/" ++ toString q.den

/-- `series.pct_change()`: NaN first entry, then `x[i]/x[i-1] - 1`.
A zero or NaN previous value yields a non-finite entry, collapsed here to
`none`; this feeds only the displayed volatility text. -/
def pctChange : List (Option ℚ) → List (Option ℚ)
  | [] => []
  | x :: xs => none :: List.zipWith (fun prev cur =>
      match prev, cur with
      | some p, some c => if p = 0 then none else some ((c - p) / p)
      | _, _ => none) (x :: xs) xs

/-- Sample variance (the square of pandas `std`, ddof = 1); `none` (NaN)
when fewer than 2 observations. -/
def sampleVar (l : List ℚ) : Option ℚ :=
  if l.length < 2 then none
  else
    let n : ℚ := l.length
    let m := l.sum / n
    some ((l.map (fun x => (x - m) ^ 2)).sum / (n - 1))

/-- The annualized-volatility text: `returns.std() * 252 ** 0.5`, with NaN
observations skipped by `std`.  The square root is irrational, so the
value is displayed symbolically as sqrt of variance times 252. -/
def volatilityText (closes : List (Option ℚ)) : String :=
  match sampleVar ((pctChange closes).filterMap id) with
  | none => "nan%"
  | some v => "sqrt(" ++ toString (v * 252).num ++ "/" ++ toString (v * 252).den ++ ")%"

/-- The infallible tail of `calculate_analysis` (`ai_analyzer.py`, lines
20-88), given the extracted latest values.  The multi-line layout and
numeric formatting of the Python f-strings are collapsed into plain
concatenation; every content-bearing component is kept in source order. -/
def analysisCore (v : LatestVals) (metrics info : List (String × String)) : Recommendation :=
  let price_trend := if qgt v.current_price v.ma_50 then "bullish" else "bearish"
  let momentum := if qgt v.current_price v.ma_20 then "increasing" else "decreasing"
  let volume_trend :=
    if qgt v.volume (v.avg_volume.map (fun a => a * 1.2)) then "high"
    else if qlt v.volume (v.avg_volume.map (fun a => a * 0.8)) then "low"
    else "normal"
  let s := mkSignals v.current_price v.ma_20 v.ma_50 v.rsi v.volume v.avg_volume
  let recRisk := decide_recommendation s
  let volStr := volatilityText v.closes
  let rsiCond :=
    if qlt v.rsi (some 30) then "oversold"
    else if qgt v.rsi (some 70) then "overbought"
    else "neutral"
  { summary := "The stock is currently in a " ++ price_trend ++ " trend with " ++
      momentum ++ " momentum. Trading volume is " ++ volume_trend ++
      " compared to the 20-day average. Annual volatility is " ++ volStr ++ "."
    technical_analysis := "Price Analysis: - Current price ($" ++ fmtOptQ v.current_price ++
      ") is " ++ price_trend ++ " relative to the 50-day moving average ($" ++
      fmtOptQ v.ma_50 ++ ") - 20-day moving average: $" ++ fmtOptQ v.ma_20 ++
      " - RSI at " ++ fmtOptQ v.rsi ++ " indicates " ++ rsiCond ++
      " conditions - Volume is " ++ volume_trend.toUpper ++ " at " ++
      fmtOptQ v.volume ++ " shares"
    fundamental_analysis := "Market Metrics: - Market Cap: " ++
      dictGetD metrics "Market Cap" "N/A" ++ " - P/E Ratio: " ++
      dictGetD metrics "P/E Ratio" "N/A" ++ " - Beta: " ++
      dictGetD metrics "Beta" "N/A" ++ " Sector: " ++
      dictGetD info "sector" "N/A" ++ " Industry: " ++
      dictGetD info "industry" "N/A"
    recommendation := recRisk.1
    risk_level := recRisk.2
    reasoning := "Recommendation based on: - Price trend: " ++ price_trend.toUpper ++
      " - RSI: " ++ fmtOptQ v.rsi ++ " - Volume: " ++ volume_trend.toUpper ++
      " - Volatility: " ++ volStr }

/-- `calculate_analysis(hist_data, metrics, info)`: the fallible
extraction followed by the pure analysis. -/
def calculate_analysis (h : HistData) (metrics info : List (String × String)) :
    Except String Recommendation :=
  (extractVals h).map (fun v => analysisCore v metrics info)

/-- The fixed fallback dictionary of `get_stock_analysis`
(`ai_analyzer.py`, lines 96-104); only the `error` entry depends on the
caught exception. -/
def fallbackAnalysis (msg : String) : Recommendation :=
  { error := some ("Failed to generate analysis: " ++ msg)
    summary := "Technical analysis based on price trends and indicators."
    technical_analysis := "Analysis temporarily unavailable."
    fundamental_analysis := "Analysis temporarily unavailable."
    recommendation := "Hold"
    risk_level := "Medium"
    reasoning := "Insufficient data for detailed analysis." }

/-- `get_stock_analysis`: returns the computed analysis, or the fallback
dictionary if any exception was raised. -/
def get_stock_analysis (h : HistData) (metrics info : List (String × String)) :
    Recommendation :=
  match calculate_analysis h metrics info with
  | .ok r => r
  | .error e => fallbackAnalysis e


/- ===================== analyze_portfolio (data_fetcher.py) ===================== -/

/-- The per-symbol quote data obtained from the excluded data layer
(current price, previous close, optional sector classification). -/
structure StockQuote where
  currentPrice : ℚ
  prevClose : ℚ
  sector : Option String
deriving DecidableEq, Repr

/-- One row of the uploaded portfolio CSV. -/
structure Holding where
  symbol : String
  shares : ℚ
deriving DecidableEq, Repr

/-- The per-stock dictionary appended to `analysis[stocks]`. -/
structure StockDetail where
  symbol : String
  shares : ℚ
  current_price : ℚ
  total_value : ℚ
  daily_change : ℚ
  sector : String
deriving DecidableEq, Repr

/-- The `analysis` dictionary of `analyze_portfolio`.  The sector
distribution is a Python dict: an insertion-ordered association list with
unique keys. -/
structure PortfolioAnalysis where
  total_value : ℚ
  daily_change : ℚ
  stocks : List StockDetail
  sector_distribution : List (String × ℚ)
  risk_level : String
deriving DecidableEq, Repr

/-- Python dict read `d.get(k, 0)`. -/
def dictGet (d : List (String × ℚ)) (k : String) : ℚ :=
  match d with
  | [] => 0
  | p :: rest => if p.1 = k then p.2 else dictGet rest k

/-- Python dict write `d[k] = d.get(k, 0) + v`: updates the existing
entry in place, or appends a new key at the end. -/
def dictAdd (d : List (String × ℚ)) (k : String) (v : ℚ) : List (String × ℚ) :=
  match d with
  | [] => [(k, v)]
  | p :: rest => if p.1 = k then (p.1, p.2 + v) :: rest else p :: dictAdd rest k v

/-- The initial `analysis` dictionary (`data_fetcher.py`, lines 88-94). -/
def initAnalysis : PortfolioAnalysis :=
  { total_value := 0
    daily_change := 0
    stocks := []
    sector_distribution := []
    risk_level := "Medium" }

/-- The enrichment computed inside the loop body for one holding given its
quote (`data_fetcher.py`, lines 101-126): stock value, daily change
percentage and sector (missing sector classification becomes the literal
"Unknown"). -/
def enrichHolding (q : StockQuote) (h : Holding) : StockDetail :=
  { symbol := h.symbol
    shares := h.shares
    current_price := q.currentPrice
    total_value := q.currentPrice * h.shares
    daily_change := (q.currentPrice - q.prevClose) / q.prevClose * 100
    sector := q.sector.getD "Unknown" }

/-- One iteration of the loop over holdings: accumulates total value, the
running-total weighted daily change, the sector buckets and the stock
list. -/
def stepPure (acc : PortfolioAnalysis) (d : StockDetail) : PortfolioAnalysis :=
  let total := acc.total_value + d.total_value
  { total_value := total
    daily_change := acc.daily_change + d.daily_change * (d.total_value / total)
    stocks := acc.stocks ++ [d]
    sector_distribution := dictAdd acc.sector_distribution d.sector d.total_value
    risk_level := acc.risk_level }

/-- The loop body including the fallible per-symbol quote lookup. -/
def analyzeStep (lookup : String → Except String StockQuote)
    (acc : PortfolioAnalysis) (h : Holding) : Except String PortfolioAnalysis := do
  let q ← lookup h.symbol
  pure (stepPure acc (enrichHolding q h))

/-- The post-loop finalization (`data_fetcher.py`, lines 128-136): sector
buckets become percentages of the total, and the risk level is derived
from the number of dict entries (distinct sectors); the initial "Medium"
is kept otherwise. -/
def finalize (a : PortfolioAnalysis) : PortfolioAnalysis :=
  let dist := a.sector_distribution.map (fun p => (p.1, p.2 / a.total_value * 100))
  { a with
    sector_distribution := dist
    risk_level :=
      if dist.length < 3 then "High"
      else if 5 < dist.length then "Low"
      else a.risk_level }

/-- `analyze_portfolio(portfolio_data)` with the per-symbol quote lookup
injected: iterates over the holdings in order; any exception aborts the
whole computation and is re-raised wrapped in the fixed message. -/
def analyze_portfolio (lookup : String → Except String StockQuote)
    (hs : List Holding) : Except String PortfolioAnalysis :=
  match hs.foldlM (analyzeStep lookup) initAnalysis with
  | .error e => .error ("Error analyzing portfolio: " ++ e)
  | .ok a => .ok (finalize a)

/-- An always-succeeding lookup, used to state properties of successful
aggregations. -/
def okLookup (lookup : String → StockQuote) : String → Except String StockQuote :=
  fun s => .ok (lookup s)

/-- The successful-loop result as a pure fold over the enriched holdings. -/
def pureFold (lookup : String → StockQuote) (hs : List Holding) : PortfolioAnalysis :=
  hs.foldl (fun acc h => stepPure acc (enrichHolding (lookup h.symbol) h)) initAnalysis

/-- Modelled from the claim C5 wording: the running-total weighted daily
change, a left fold in input order where each holding contributes
`dailyChangePct * (stockValue / running total value so far including this
holding)`. -/
def runningWeightedChange (ds : List StockDetail) : ℚ :=
  (ds.foldl
    (fun (p : ℚ × ℚ) d =>
      let t := p.1 + d.total_value
      (t, p.2 + d.daily_change * (d.total_value / t)))
    (0, 0)).2

/-- Modelled from the claim C5 wording: the value-weighted average of the
daily changes over the final total. -/
def finalWeightedAvg (ds : List StockDetail) : ℚ :=
  (ds.map (fun d => d.daily_change * d.total_value)).sum / (ds.map (fun d => d.total_value)).sum

/-- Modelled from the claim C6 wording: the sum of the stock values of the
holdings classified in a given sector. -/
def sectorValueSpec (lookup : String → StockQuote) (hs : List Holding) (s : String) : ℚ :=
  (((hs.map (fun h => enrichHolding (lookup h.symbol) h)).filter
      (fun d => d.sector = s)).map (fun d => d.total_value)).sum

/- ===================== dictionary lemmas ===================== -/

/-- The keys of a sector dictionary, in insertion order. -/
def keys (d : List (String × ℚ)) : List String := d.map Prod.fst

/-- The sum of all bucket values of a sector dictionary. -/
def sumVals (d : List (String × ℚ)) : ℚ := (d.map Prod.snd).sum

lemma keys_cons (p : String × ℚ) (d : List (String × ℚ)) :
    keys (p :: d) = p.1 :: keys d := rfl

lemma sumVals_cons (p : String × ℚ) (d : List (String × ℚ)) :
    sumVals (p :: d) = p.2 + sumVals d := by simp [sumVals]

lemma dictAdd_cons_ne (p : String × ℚ) (d : List (String × ℚ)) (k : String) (v : ℚ)
    (h : ¬ p.1 = k) : dictAdd (p :: d) k v = p :: dictAdd d k v := by
  simp [dictAdd, h]

lemma dictGet_dictAdd (d : List (String × ℚ)) (k k2 : String) (v : ℚ) :
    dictGet (dictAdd d k v) k2 = dictGet d k2 + (if k2 = k then v else 0) := by
  induction d with
  | nil =>
    by_cases h : k2 = k
    · subst h; simp [dictAdd, dictGet]
    · have h2 : ¬ k = k2 := fun hh => h hh.symm
      simp [dictAdd, dictGet, h, h2]
  | cons p rest ih =>
    by_cases hpk : p.1 = k
    · by_cases h : k2 = k
      · subst h; simp [dictAdd, dictGet, hpk]
      · have h2 : ¬ p.1 = k2 := fun hh => h (hh.symm.trans hpk)
        have h3 : ¬ k = k2 := fun hh => h hh.symm
        simp [dictAdd, dictGet, hpk, h2, h, h3]
    · by_cases h2 : p.1 = k2
      · have h3 : ¬ k2 = k := fun hh => hpk (h2.trans hh)
        simp [dictAdd, dictGet, hpk, h2, h3]
      · simp [dictAdd, dictGet, hpk, h2, ih]

lemma keys_dictAdd (d : List (String × ℚ)) (k : String) (v : ℚ) :
    keys (dictAdd d k v) = if k ∈ keys d then keys d else keys d ++ [k] := by
  induction d with
  | nil => simp [dictAdd, keys]
  | cons p rest ih =>
    by_cases hpk : p.1 = k
    · have hmem : k ∈ keys (p :: rest) := by
        rw [keys_cons]; exact List.mem_cons.mpr (Or.inl hpk.symm)
      rw [if_pos hmem]
      simp [dictAdd, hpk, keys]
    · rw [dictAdd_cons_ne p rest k v hpk, keys_cons, ih, keys_cons]
      by_cases hk : k ∈ keys rest
      · rw [if_pos hk, if_pos (List.mem_cons.mpr (Or.inr hk))]
      · have hne : ¬ k = p.1 := fun hh => hpk hh.symm
        rw [if_neg hk, if_neg (by simp [List.mem_cons, hk, hne])]
        simp

lemma sumVals_dictAdd (d : List (String × ℚ)) (k : String) (v : ℚ) :
    sumVals (dictAdd d k v) = sumVals d + v := by
  induction d with
  | nil => simp [dictAdd, sumVals]
  | cons p rest ih =>
    by_cases hpk : p.1 = k
    · simp [dictAdd, hpk, sumVals]; ring
    · rw [dictAdd_cons_ne p rest k v hpk, sumVals_cons, sumVals_cons, ih]; ring

lemma dictGet_of_mem_nodup :
    ∀ (d : List (String × ℚ)) (p : String × ℚ),
      (keys d).Nodup → p ∈ d → dictGet d p.1 = p.2
  | [], p, _, hp => by cases hp
  | q :: rest, p, hnd, hp => by
    rcases List.mem_cons.mp hp with h | h
    · subst h; simp [dictGet]
    · have hmem : p.1 ∈ keys rest := List.mem_map.mpr ⟨p, h, rfl⟩
      have hnd2 := List.nodup_cons.mp (by rw [keys_cons] at hnd; exact hnd)
      have hq : ¬ q.1 = p.1 := fun he => hnd2.1 (he ▸ hmem)
      rw [show dictGet (q :: rest) p.1 = if q.1 = p.1 then q.2 else dictGet rest p.1 from rfl,
        if_neg hq]
      exact dictGet_of_mem_nodup rest p hnd2.2 h

/- ===================== fold lemmas ===================== -/

/-- The sector dictionary accumulated over a list of enriched holdings. -/
def distFold (d0 : List (String × ℚ)) (ds : List StockDetail) : List (String × ℚ) :=
  ds.foldl (fun dd d => dictAdd dd d.sector d.total_value) d0

lemma distFold_nil (d0 : List (String × ℚ)) : distFold d0 [] = d0 := rfl

lemma distFold_cons (d0 : List (String × ℚ)) (d : StockDetail) (ds : List StockDetail) :
    distFold d0 (d :: ds) = distFold (dictAdd d0 d.sector d.total_value) ds := rfl

lemma dictGet_distFold :
    ∀ (ds : List StockDetail) (d0 : List (String × ℚ)) (k : String),
      dictGet (distFold d0 ds) k =
        dictGet d0 k + ((ds.filter (fun d => d.sector = k)).map (fun d => d.total_value)).sum
  | [], d0, k => by simp [distFold]
  | d :: ds, d0, k => by
    rw [distFold_cons, dictGet_distFold ds _ k, dictGet_dictAdd]
    by_cases h : d.sector = k
    · subst h
      simp [List.filter_cons]
      ring
    · have h2 : ¬ k = d.sector := fun hh => h hh.symm
      simp [List.filter_cons, h, h2]

lemma sumVals_distFold :
    ∀ (ds : List StockDetail) (d0 : List (String × ℚ)),
      sumVals (distFold d0 ds) = sumVals d0 + (ds.map (fun d => d.total_value)).sum
  | [], d0 => by simp [distFold]
  | d :: ds, d0 => by
    rw [distFold_cons, sumVals_distFold ds _, sumVals_dictAdd]
    simp
    ring

lemma mem_keys_distFold :
    ∀ (ds : List StockDetail) (d0 : List (String × ℚ)) (k : String),
      k ∈ keys (distFold d0 ds) ↔ k ∈ keys d0 ∨ k ∈ ds.map (fun d => d.sector)
  | [], d0, k => by simp [distFold]
  | d :: ds, d0, k => by
    rw [distFold_cons, mem_keys_distFold ds _ k, keys_dictAdd]
    by_cases h : d.sector ∈ keys d0
    · rw [if_pos h]
      constructor
      · rintro (hk | hk)
        · exact Or.inl hk
        · exact Or.inr (List.mem_cons.mpr (Or.inr hk))
      · rintro (hk | hk)
        · exact Or.inl hk
        · rcases List.mem_cons.mp hk with hk | hk
          · exact Or.inl (hk ▸ h)
          · exact Or.inr hk
    · rw [if_neg h]
      constructor
      · rintro (hk | hk)
        · rcases List.mem_append.mp hk with hk | hk
          · exact Or.inl hk
          · exact Or.inr (List.mem_cons.mpr (Or.inl (List.mem_singleton.mp hk)))
        · exact Or.inr (List.mem_cons.mpr (Or.inr hk))
      · rintro (hk | hk)
        · exact Or.inl (List.mem_append.mpr (Or.inl hk))
        · rcases List.mem_cons.mp hk with hk | hk
          · exact Or.inl (List.mem_append.mpr (Or.inr (List.mem_singleton.mpr hk)))
          · exact Or.inr hk

lemma nodup_keys_distFold :
    ∀ (ds : List StockDetail) (d0 : List (String × ℚ)),
      (keys d0).Nodup → (keys (distFold d0 ds)).Nodup
  | [], d0, h => by simpa [distFold] using h
  | d :: ds, d0, h => by
    rw [distFold_cons]
    refine nodup_keys_distFold ds _ ?_
    rw [keys_dictAdd]
    by_cases hm : d.sector ∈ keys d0
    · rw [if_pos hm]; exact h
    · rw [if_neg hm]
      simp [List.nodup_append, h, hm]

lemma length_keys (d : List (String × ℚ)) : (keys d).length = d.length := by
  simp [keys]

lemma length_distFold_card (ds : List StockDetail) :
    (distFold [] ds).length = ((ds.map (fun d => d.sector)).toFinset).card := by
  have hnd : (keys (distFold [] ds)).Nodup := nodup_keys_distFold ds [] (by simp [keys])
  have hmem : ∀ k, k ∈ keys (distFold [] ds) ↔ k ∈ ds.map (fun d => d.sector) := by
    intro k
    rw [mem_keys_distFold ds [] k]
    simp [keys]
  rw [← length_keys, ← List.toFinset_card_of_nodup hnd]
  congr 1
  ext x
  simp [List.mem_toFinset, hmem x]

lemma foldl_stepPure_risk :
    ∀ (ds : List StockDetail) (acc : PortfolioAnalysis),
      (ds.foldl stepPure acc).risk_level = acc.risk_level
  | [], acc => rfl
  | d :: ds, acc => by
    rw [List.foldl_cons, foldl_stepPure_risk ds _]
    rfl

lemma foldl_stepPure_stocks :
    ∀ (ds : List StockDetail) (acc : PortfolioAnalysis),
      (ds.foldl stepPure acc).stocks = acc.stocks ++ ds
  | [], acc => by simp
  | d :: ds, acc => by
    rw [List.foldl_cons, foldl_stepPure_stocks ds _]
    simp [stepPure]

lemma foldl_stepPure_dist :
    ∀ (ds : List StockDetail) (acc : PortfolioAnalysis),
      (ds.foldl stepPure acc).sector_distribution = distFold acc.sector_distribution ds
  | [], acc => rfl
  | d :: ds, acc => by
    rw [List.foldl_cons, foldl_stepPure_dist ds _, distFold_cons]
    rfl

lemma foldl_stepPure_total :
    ∀ (ds : List StockDetail) (acc : PortfolioAnalysis),
      (ds.foldl stepPure acc).total_value = acc.total_value + (ds.map (fun d => d.total_value)).sum
  | [], acc => by simp
  | d :: ds, acc => by
    rw [List.foldl_cons, foldl_stepPure_total ds _]
    simp [stepPure]
    ring

lemma foldl_stepPure_pair :
    ∀ (ds : List StockDetail) (acc : PortfolioAnalysis),
      ((ds.foldl stepPure acc).total_value, (ds.foldl stepPure acc).daily_change) =
        ds.foldl
          (fun (p : ℚ × ℚ) d =>
            let t := p.1 + d.total_value
            (t, p.2 + d.daily_change * (d.total_value / t)))
          (acc.total_value, acc.daily_change)
  | [], acc => rfl
  | d :: ds, acc => by
    rw [List.foldl_cons, List.foldl_cons, foldl_stepPure_pair ds _]
    rfl

/-- With an always-succeeding lookup the loop is the pure fold. -/
lemma foldlM_okLookup (lookup : String → StockQuote) :
    ∀ (hs : List Holding) (acc : PortfolioAnalysis),
      hs.foldlM (analyzeStep (okLookup lookup)) acc =
        .ok (hs.foldl (fun acc h => stepPure acc (enrichHolding (lookup h.symbol) h)) acc)
  | [], acc => rfl
  | h :: hs, acc => by
    rw [List.foldlM_cons, List.foldl_cons]
    show (analyzeStep (okLookup lookup) acc h) >>= _ = _
    rw [show analyzeStep (okLookup lookup) acc h =
      .ok (stepPure acc (enrichHolding (lookup h.symbol) h)) from rfl]
    show List.foldlM _ _ _ = _
    exact foldlM_okLookup lookup hs _

/-- A successful aggregation in closed form. -/
lemma analyze_portfolio_ok (lookup : String → StockQuote) (hs : List Holding) :
    analyze_portfolio (okLookup lookup) hs = .ok (finalize (pureFold lookup hs)) := by
  rw [analyze_portfolio, foldlM_okLookup lookup hs initAnalysis]
  rfl

lemma pureFold_eq_foldl_details (lookup : String → StockQuote) (hs : List Holding) :
    pureFold lookup hs =
      (hs.map (fun h => enrichHolding (lookup h.symbol) h)).foldl stepPure initAnalysis := by
  rw [pureFold, List.foldl_map]

lemma pureFold_dist (lookup : String → StockQuote) (hs : List Holding) :
    (pureFold lookup hs).sector_distribution =
      distFold [] (hs.map (fun h => enrichHolding (lookup h.symbol) h)) := by
  rw [pureFold_eq_foldl_details, foldl_stepPure_dist]
  rfl

lemma pureFold_risk (lookup : String → StockQuote) (hs : List Holding) :
    (pureFold lookup hs).risk_level = "Medium" := by
  rw [pureFold_eq_foldl_details, foldl_stepPure_risk]
  rfl

lemma pureFold_total (lookup : String → StockQuote) (hs : List Holding) :
    (pureFold lookup hs).total_value =
      ((hs.map (fun h => enrichHolding (lookup h.symbol) h)).map (fun d => d.total_value)).sum := by
  rw [pureFold_eq_foldl_details, foldl_stepPure_total]
  simp [initAnalysis]

lemma sectors_map (lookup : String → StockQuote) (hs : List Holding) :
    (hs.map (fun h => enrichHolding (lookup h.symbol) h)).map (fun d => d.sector) =
      hs.map (fun h => (lookup h.symbol).sector.getD "Unknown") := by
  rw [List.map_map]
  rfl

lemma dist_length_card (lookup : String → StockQuote) (hs : List Holding) :
    (pureFold lookup hs).sector_distribution.length =
      ((hs.map (fun h => (lookup h.symbol).sector.getD "Unknown")).toFinset).card := by
  rw [pureFold_dist, length_distFold_card, sectors_map]

lemma finalize_pureFold_risk (lookup : String → StockQuote) (hs : List Holding) :
    (finalize (pureFold lookup hs)).risk_level =
      (if ((hs.map (fun h => (lookup h.symbol).sector.getD "Unknown")).toFinset).card < 3
       then "High"
       else if 5 < ((hs.map (fun h => (lookup h.symbol).sector.getD "Unknown")).toFinset).card
       then "Low"
       else "Medium") := by
  have h1 := dist_length_card lookup hs
  have h2 := pureFold_risk lookup hs
  simp [finalize, List.length_map, h1, h2]

/-- `e.isOk`-style test for the injected quote lookup. -/
def isOkE : Except String StockQuote → Bool
  | .ok _ => true
  | .error _ => false

lemma foldlM_abort (lookup : String → Except String StockQuote) (m : String) :
    ∀ (pre : List Holding) (h : Holding) (post : List Holding) (acc : PortfolioAnalysis),
      (∀ h2 ∈ pre, isOkE (lookup h2.symbol) = true) →
      lookup h.symbol = .error m →
      (pre ++ h :: post).foldlM (analyzeStep lookup) acc = .error m
  | [], h, post, acc, _, hfail => by
    rw [List.nil_append, List.foldlM_cons]
    have hstep : analyzeStep lookup acc h = .error m := by
      unfold analyzeStep
      rw [hfail]
      rfl
    rw [hstep]
    rfl
  | p :: pre, h, post, acc, hok, hfail => by
    obtain ⟨q, hq⟩ : ∃ q, lookup p.symbol = .ok q := by
      cases hlp : lookup p.symbol with
      | ok q => exact ⟨q, rfl⟩
      | error e =>
        have := hok p (List.mem_cons.mpr (Or.inl rfl))
        rw [hlp] at this
        simp [isOkE] at this
    rw [List.cons_append, List.foldlM_cons]
    have hstep : analyzeStep lookup acc p = .ok (stepPure acc (enrichHolding q p)) := by
      unfold analyzeStep
      rw [hq]
      rfl
    rw [hstep]
    show List.foldlM (analyzeStep lookup) (stepPure acc (enrichHolding q p)) (pre ++ h :: post) =
      Except.error m
    exact foldlM_abort lookup m pre h post _
      (fun h2 hh => hok h2 (List.mem_cons.mpr (Or.inr hh))) hfail

/-- A lookup failure anywhere in the holdings aborts the whole aggregation
with the wrapping error message; no summary value is produced. -/
lemma analyze_portfolio_abort (lookup : String → Except String StockQuote) (m : String)
    (pre : List Holding) (h : Holding) (post : List Holding)
    (hok : ∀ h2 ∈ pre, isOkE (lookup h2.symbol) = true)
    (hfail : lookup h.symbol = .error m) :
    analyze_portfolio lookup (pre ++ h :: post) =
      .error ("Error analyzing portfolio: " ++ m) := by
  rw [analyze_portfolio, foldlM_abort lookup m pre h post initAnalysis hok hfail]

lemma pureFold_daily (lookup : String → StockQuote) (hs : List Holding) :
    (pureFold lookup hs).daily_change =
      runningWeightedChange (hs.map (fun h => enrichHolding (lookup h.symbol) h)) := by
  rw [pureFold_eq_foldl_details, runningWeightedChange]
  have hp := foldl_stepPure_pair (hs.map (fun h => enrichHolding (lookup h.symbol) h)) initAnalysis
  have h2 := congrArg Prod.snd hp
  simpa [initAnalysis] using h2

lemma sumVals_map_pct (d : List (String × ℚ)) (t : ℚ) :
    ((d.map (fun p => (p.1, p.2 / t * 100))).map Prod.snd).sum = sumVals d / t * 100 := by
  induction d with
  | nil => simp [sumVals]
  | cons p rest ih =>
    simp only [List.map_cons, List.sum_cons, ih, sumVals_cons]
    ring

lemma keys_map_pct (d : List (String × ℚ)) (t : ℚ) :
    keys (d.map (fun p => (p.1, p.2 / t * 100))) = keys d := by
  simp [keys, List.map_map]

lemma rollingMean_get_none (w : Nat) (xs : List ℚ) (i : Nat)
    (hi : i < xs.length) (hw : i + 1 < w) :
    (rollingMean w xs).get? i = some none := by
  simp only [rollingMean, rollingMeanO, List.length_map, List.get?_eq_getElem?,
    List.getElem?_map, List.getElem?_range hi]
  simp [hw]

lemma decide_recommendation_cases (s : Signals) :
    decide_recommendation s = ("Buy", "Medium") ∨
      decide_recommendation s = ("Sell", "High") ∨
      decide_recommendation s = ("Hold", "Low") := by
  unfold decide_recommendation
  split_ifs <;> simp

/- ===================== claim theorems ===================== -/

/-- C1: for every latest indicator point, the recommendation block of
`calculate_analysis` evaluates exactly the decision table stated by the
spec, top-to-bottom with first match winning: branch 1 gives
(Buy, Medium), branch 2 gives (Sell, High), otherwise (Hold, Low). -/
theorem recommendation_matches_spec_table :
    ∀ (close ma20 ma50 rsi volume avgVolume20 : ℚ),
      decide_recommendation
          (mkSignals (some close) (some ma20) (some ma50) (some rsi) (some volume)
            (some avgVolume20)) =
        specDecisionTable close ma50 ma20 rsi volume avgVolume20 := by
  intro c m20 m50 r v av
  unfold decide_recommendation mkSignals specDecisionTable qgt qlt
  by_cases h1 : m50 < c <;> by_cases h2 : m20 < c <;> by_cases h3 : r < 30 <;>
    by_cases h4 : (70:ℚ) < r <;> by_cases h5 : av * 1.2 < v <;>
    simp [h1, h2, h3, h4, h5]

/-- The constant-close price series of length 15 that claim C2 singles
out: every delta is 0, so both the 14-period average gain and average
loss at the latest index are (a defined) 0. -/
def constCloses : List ℚ := List.replicate 15 10

/-- A fetched frame holding that constant series. -/
def dfConst : StockDF :=
  { opn := constCloses, high := constCloses, low := constCloses,
    close := constCloses, volume := List.replicate 15 1000 }

/-- C2, evaluation of the code at the failing input: on a constant close
series the 14-period average loss at the latest index is 0 (the claim's
hypothesis holds), yet the RSI computed by
`calculate_technical_indicators` at that index is NaN (`rs = 0/0`), not
the value 100 required by the claim. -/
theorem rsi_constant_series_is_nan :
    (rollingMean 14 (lossList dfConst.close)).getLast? = some (some 0) ∧
    ((calculate_technical_indicators dfConst).rsi.getD []).getLast? = some PFloat.nan ∧
    some PFloat.nan ≠ some (PFloat.fin 100) := by
  refine ⟨?_, ?_, by simp⟩
  · norm_num [dfConst, constCloses, rollingMean, rollingMeanO, allSome, lossList,
      diffList, List.replicate, List.range_succ]
  · norm_num [calculate_technical_indicators, dfConst, constCloses, rsiList,
      rollingMean, rollingMeanO, allSome, gainList, lossList, diffList, pofOpt,
      pdiv, padd, psub, pneg, List.replicate, List.range_succ]

/-- C4 (amended): the indicator engine never fails, whatever the series
length; it returns the frame with the indicator columns written, and every
index before a rolling window fills carries no value. -/
theorem indicators_short_series_no_error :
    ∀ (df : StockDF),
      computeIndicatorsE df = .ok (calculate_technical_indicators df) ∧
      (calculate_technical_indicators df).ma50 = some (rollingMean 50 df.close) ∧
      (calculate_technical_indicators df).ma20 = some (rollingMean 20 df.close) ∧
      (∀ i, i < df.close.length → i + 1 < 50 → (rollingMean 50 df.close).get? i = some none) ∧
      (∀ i, i < df.close.length → i + 1 < 20 → (rollingMean 20 df.close).get? i = some none) := by
  intro df
  exact ⟨rfl, rfl, rfl,
    fun i hi hw => rollingMean_get_none 50 df.close i hi hw,
    fun i hi hw => rollingMean_get_none 20 df.close i hi hw⟩

/-- A one-record price series. -/
def dfSingle : StockDF :=
  { opn := [10], high := [10], low := [10], close := [10], volume := [1000] }

/-- C4 counterexample: on a series of length exactly 1 the engine returns
normally (with the indicator columns all-NaN); it does not fail with
`InsufficientDataError` — no such failure path exists in the source. -/
theorem indicators_single_record_returns :
    computeIndicatorsE dfSingle = .ok (calculate_technical_indicators dfSingle) := rfl

/-- C4 witness for the leading-absence part at a concrete input. -/
theorem indicators_short_series_no_error_witness :
    computeIndicatorsE dfSingle = .ok (calculate_technical_indicators dfSingle) ∧
    (0 < dfSingle.close.length ∧ 0 + 1 < 50) ∧
    (rollingMean 50 dfSingle.close).get? 0 = some none :=
  ⟨(indicators_short_series_no_error dfSingle).1, ⟨by decide, by decide⟩,
    (indicators_short_series_no_error dfSingle).2.2.2.1 0 (by decide) (by decide)⟩

/-- A freshly fetched two-record frame, before any indicator column
exists. -/
def dfFresh : StockDF :=
  { opn := [1, 2], high := [1, 2], low := [1, 2], close := [1, 2], volume := [5, 6] }

/-- C9 counterexample: `calculate_technical_indicators` writes the
indicator columns into the frame it was given and returns that same
object, so the input frame after the call (equal to the return value)
differs from the input frame before the call: the input is mutated. -/
theorem indicators_mutate_input_frame :
    calculate_technical_indicators dfFresh ≠ dfFresh := fun hEq => by
  have hma := congrArg StockDF.ma20 hEq
  simp [calculate_technical_indicators, dfFresh] at hma

/-- C9 (amended): the mutation only adds/overwrites the indicator columns
— the price and volume columns are unchanged — and recomputation is
stable: running the function again on the (mutated) result rewrites the
same columns with the same values, and identical input series always give
identical output. -/
theorem indicators_preserve_inputs_idempotent :
    ∀ (df : StockDF),
      (calculate_technical_indicators df).opn = df.opn ∧
      (calculate_technical_indicators df).high = df.high ∧
      (calculate_technical_indicators df).low = df.low ∧
      (calculate_technical_indicators df).close = df.close ∧
      (calculate_technical_indicators df).volume = df.volume ∧
      calculate_technical_indicators (calculate_technical_indicators df) =
        calculate_technical_indicators df :=
  fun _ => ⟨rfl, rfl, rfl, rfl, rfl, rfl⟩

/-- C3: the recommendation entry point always returns a well-formed
analysis value — the recommendation is one of Buy/Hold/Sell and the risk
level one of Low/Medium/High — and whenever the internal computation
raises, the returned value is exactly the fixed fallback dictionary,
whose recommendation is Hold and risk level Medium. -/
theorem get_stock_analysis_total_with_fallback :
    ∀ (h : HistData) (metrics info : List (String × String)),
      (get_stock_analysis h metrics info).recommendation ∈ (["Buy", "Hold", "Sell"] : List String) ∧
      (get_stock_analysis h metrics info).risk_level ∈ (["Low", "Medium", "High"] : List String) ∧
      (∀ e, calculate_analysis h metrics info = .error e →
          get_stock_analysis h metrics info = fallbackAnalysis e ∧
          (get_stock_analysis h metrics info).recommendation = "Hold" ∧
          (get_stock_analysis h metrics info).risk_level = "Medium") := by
  intro h metrics info
  cases hx : extractVals h with
  | error e =>
    have hca : calculate_analysis h metrics info = .error e := by
      rw [calculate_analysis, hx]
      rfl
    have hg : get_stock_analysis h metrics info = fallbackAnalysis e := by
      rw [get_stock_analysis, hca]
    refine ⟨by rw [hg]; simp [fallbackAnalysis], by rw [hg]; simp [fallbackAnalysis], ?_⟩
    intro e2 he2
    rw [hca] at he2
    injection he2 with he3
    subst he3
    exact ⟨hg, by rw [hg]; rfl, by rw [hg]; rfl⟩
  | ok v =>
    have hca : calculate_analysis h metrics info =
        .ok (analysisCore v metrics info) := by
      rw [calculate_analysis, hx]
      rfl
    have hg : get_stock_analysis h metrics info = analysisCore v metrics info := by
      rw [get_stock_analysis, hca]
    have hrec : (analysisCore v metrics info).recommendation =
        (decide_recommendation
          (mkSignals v.current_price v.ma_20 v.ma_50 v.rsi v.volume v.avg_volume)).1 := rfl
    have hrisk : (analysisCore v metrics info).risk_level =
        (decide_recommendation
          (mkSignals v.current_price v.ma_20 v.ma_50 v.rsi v.volume v.avg_volume)).2 := rfl
    refine ⟨?_, ?_, ?_⟩
    · rcases decide_recommendation_cases
        (mkSignals v.current_price v.ma_20 v.ma_50 v.rsi v.volume v.avg_volume) with hc | hc | hc <;>
        rw [hg] <;> simp [hrec, hc]
    · rcases decide_recommendation_cases
        (mkSignals v.current_price v.ma_20 v.ma_50 v.rsi v.volume v.avg_volume) with hc | hc | hc <;>
        rw [hg] <;> simp [hrisk, hc]
    · intro e2 he2
      rw [hca] at he2
      exact absurd he2 (by simp)

/-- A frame with no columns at all: the first access raises KeyError. -/
def histDataEmpty : HistData := {}

/-- C3 witness: a concrete raising input and the exact fallback result. -/
theorem get_stock_analysis_fallback_witness :
    calculate_analysis histDataEmpty [] [] = .error "\x27Close\x27" ∧
    get_stock_analysis histDataEmpty [] [] = fallbackAnalysis "\x27Close\x27" :=
  ⟨rfl,
    ((get_stock_analysis_total_with_fallback histDataEmpty [] []).2.2 "\x27Close\x27" rfl).1⟩

/-- The daily-change field of an aggregation result (0 on failure). -/
def dailyOf : Except String PortfolioAnalysis → ℚ
  | .ok a => a.daily_change
  | .error _ => 0

/-- The total-value field of an aggregation result (0 on failure). -/
def totalOf : Except String PortfolioAnalysis → ℚ
  | .ok a => a.total_value
  | .error _ => 0

/-- The sector-distribution field of an aggregation result. -/
def distOf : Except String PortfolioAnalysis → List (String × ℚ)
  | .ok a => a.sector_distribution
  | .error _ => []

/-- Quotes for the order-dependence example: AAA moved from 10 to 11
(+10 percent), everything else is flat at 10. -/
def lookupAB : String → StockQuote := fun s =>
  if s = "AAA" then { currentPrice := 11, prevClose := 10, sector := some "Tech" }
  else { currentPrice := 10, prevClose := 10, sector := some "Energy" }

/-- 10 shares of AAA: stock value 110, daily change 10 percent. -/
def holdingA : Holding := { symbol := "AAA", shares := 10 }

/-- 11 shares of BBB: stock value 110, daily change 0 percent. -/
def holdingB : Holding := { symbol := "BBB", shares := 11 }

/-- C5: the aggregated daily change is the left fold, in input order, in
which each holding contributes its daily change weighted by its share of
the running total so far including itself; consequently it is
order-dependent and differs from the value-weighted average over the
final total (both shown on an explicit two-holding portfolio, where the
two orders give 10 and 5 while the final-weights average is 5). -/
theorem portfolio_daily_change_running_weighted :
    (∀ (lookup : String → StockQuote) (hs : List Holding),
        analyze_portfolio (okLookup lookup) hs = .ok (finalize (pureFold lookup hs)) ∧
        (finalize (pureFold lookup hs)).daily_change =
          runningWeightedChange (hs.map (fun h => enrichHolding (lookup h.symbol) h))) ∧
    dailyOf (analyze_portfolio (okLookup lookupAB) [holdingA, holdingB]) = 10 ∧
    dailyOf (analyze_portfolio (okLookup lookupAB) [holdingB, holdingA]) = 5 ∧
    finalWeightedAvg ([holdingA, holdingB].map (fun h => enrichHolding (lookupAB h.symbol) h)) = 5 ∧
    dailyOf (analyze_portfolio (okLookup lookupAB) [holdingA, holdingB]) ≠
      dailyOf (analyze_portfolio (okLookup lookupAB) [holdingB, holdingA]) ∧
    dailyOf (analyze_portfolio (okLookup lookupAB) [holdingA, holdingB]) ≠
      finalWeightedAvg ([holdingA, holdingB].map (fun h => enrichHolding (lookupAB h.symbol) h)) := by
  have hgen : ∀ (lookup : String → StockQuote) (hs : List Holding),
      analyze_portfolio (okLookup lookup) hs = .ok (finalize (pureFold lookup hs)) ∧
      (finalize (pureFold lookup hs)).daily_change =
        runningWeightedChange (hs.map (fun h => enrichHolding (lookup h.symbol) h)) :=
    fun lookup hs => ⟨analyze_portfolio_ok lookup hs, pureFold_daily lookup hs⟩
  have e1 : dailyOf (analyze_portfolio (okLookup lookupAB) [holdingA, holdingB]) = 10 := by
    rw [(hgen lookupAB [holdingA, holdingB]).1]
    norm_num [dailyOf, finalize, pureFold, stepPure, enrichHolding, initAnalysis,
      lookupAB, holdingA, holdingB, dictAdd, show ("BBB":String) ≠ "AAA" from by decide]
  have e2 : dailyOf (analyze_portfolio (okLookup lookupAB) [holdingB, holdingA]) = 5 := by
    rw [(hgen lookupAB [holdingB, holdingA]).1]
    norm_num [dailyOf, finalize, pureFold, stepPure, enrichHolding, initAnalysis,
      lookupAB, holdingA, holdingB, dictAdd, show ("BBB":String) ≠ "AAA" from by decide]
  have e3 : finalWeightedAvg
      ([holdingA, holdingB].map (fun h => enrichHolding (lookupAB h.symbol) h)) = 5 := by
    norm_num [finalWeightedAvg, enrichHolding, lookupAB, holdingA, holdingB,
      show ("BBB":String) ≠ "AAA" from by decide]
  exact ⟨hgen, e1, e2, e3, by rw [e1, e2]; norm_num, by rw [e1, e3]; norm_num⟩

/-- Quotes for the spec example portfolio. -/
def lookupExample : String → StockQuote := fun s =>
  if s = "AAPL" then { currentPrice := 150, prevClose := 145, sector := some "Tech" }
  else { currentPrice := 100, prevClose := 102, sector := some "Energy" }

/-- 10 shares of AAPL (value 1500, sector Tech). -/
def holdingAAPL : Holding := { symbol := "AAPL", shares := 10 }

/-- 5 shares of XOM (value 500, sector Energy). -/
def holdingXOM : Holding := { symbol := "XOM", shares := 5 }

/-- C6: for positive total value, every sector bucket of the final
distribution equals 100 times that sector's accumulated stock value over
the total, the buckets sum to 100, and the spec's two-holding example
yields total 2000 with distribution Tech 75 / Energy 25. -/
theorem portfolio_sector_distribution_pct :
    (∀ (lookup : String → StockQuote) (hs : List Holding),
        0 < (pureFold lookup hs).total_value →
        (∀ p ∈ (finalize (pureFold lookup hs)).sector_distribution,
            p.2 = 100 * sectorValueSpec lookup hs p.1 / (pureFold lookup hs).total_value) ∧
        ((finalize (pureFold lookup hs)).sector_distribution.map Prod.snd).sum = 100) ∧
    analyze_portfolio (okLookup lookupExample) [holdingAAPL, holdingXOM] =
      .ok (finalize (pureFold lookupExample [holdingAAPL, holdingXOM])) ∧
    totalOf (analyze_portfolio (okLookup lookupExample) [holdingAAPL, holdingXOM]) = 2000 ∧
    distOf (analyze_portfolio (okLookup lookupExample) [holdingAAPL, holdingXOM]) =
      [("Tech", 75), ("Energy", 25)] := by
  refine ⟨?_, analyze_portfolio_ok lookupExample [holdingAAPL, holdingXOM], ?_, ?_⟩
  · intro lookup hs ht
    have hfin : (finalize (pureFold lookup hs)).sector_distribution =
        ((pureFold lookup hs).sector_distribution).map
          (fun p => (p.1, p.2 / (pureFold lookup hs).total_value * 100)) := rfl
    constructor
    · intro p hp
      rw [hfin] at hp
      obtain ⟨q, hq, hpq⟩ := List.mem_map.mp hp
      have hnd : (keys (pureFold lookup hs).sector_distribution).Nodup := by
        rw [pureFold_dist]
        exact nodup_keys_distFold _ [] (by simp [keys])
      have hget : dictGet (pureFold lookup hs).sector_distribution q.1 = q.2 :=
        dictGet_of_mem_nodup _ q hnd hq
      have hval : q.2 = sectorValueSpec lookup hs q.1 := by
        rw [← hget, pureFold_dist, dictGet_distFold]
        simp [dictGet, sectorValueSpec]
      subst hpq
      simp only [hval]
      ring
    · rw [hfin, sumVals_map_pct]
      have hsum : sumVals (pureFold lookup hs).sector_distribution =
          (pureFold lookup hs).total_value := by
        rw [pureFold_dist, sumVals_distFold, pureFold_total]
        simp [sumVals]
      rw [hsum, div_self (ne_of_gt ht)]
      norm_num
  · rw [analyze_portfolio_ok]
    norm_num [totalOf, finalize, pureFold, stepPure, enrichHolding, initAnalysis,
      lookupExample, holdingAAPL, holdingXOM, dictAdd,
      show ("XOM":String) ≠ "AAPL" from by decide]
  · rw [analyze_portfolio_ok]
    norm_num [distOf, finalize, pureFold, stepPure, enrichHolding, initAnalysis,
      lookupExample, holdingAAPL, holdingXOM, dictAdd,
      show ("XOM":String) ≠ "AAPL" from by decide,
      show ("Tech":String) ≠ "Energy" from by decide]

/-- C6 witness: the hypothesis holds at the example portfolio, and the
percentages there sum to 100. -/
theorem portfolio_sector_distribution_pct_witness :
    0 < (pureFold lookupExample [holdingAAPL, holdingXOM]).total_value ∧
    ((finalize (pureFold lookupExample [holdingAAPL, holdingXOM])).sector_distribution.map
        Prod.snd).sum = 100 := by
  have ht : 0 < (pureFold lookupExample [holdingAAPL, holdingXOM]).total_value := by
    norm_num [pureFold, stepPure, enrichHolding, initAnalysis, lookupExample,
      holdingAAPL, holdingXOM, show ("XOM":String) ≠ "AAPL" from by decide]
  exact ⟨ht,
    (portfolio_sector_distribution_pct.1 lookupExample [holdingAAPL, holdingXOM] ht).2⟩

/-- C7: for every successful aggregation, the risk level depends only on
the number of distinct sectors among the holdings: fewer than 3 gives
High, more than 5 gives Low, otherwise the initial Medium is kept. -/
theorem portfolio_risk_level_distinct_sectors :
    ∀ (lookup : String → StockQuote) (hs : List Holding),
      analyze_portfolio (okLookup lookup) hs = .ok (finalize (pureFold lookup hs)) ∧
      (finalize (pureFold lookup hs)).risk_level =
        (if ((hs.map (fun h => (lookup h.symbol).sector.getD "Unknown")).toFinset).card < 3
         then "High"
         else if 5 < ((hs.map (fun h => (lookup h.symbol).sector.getD "Unknown")).toFinset).card
         then "Low"
         else "Medium") :=
  fun lookup hs => ⟨analyze_portfolio_ok lookup hs, finalize_pureFold_risk lookup hs⟩

/-- C8 (amended): a lookup failure on any holding aborts the whole
aggregation — the caller receives a single error and no partial summary —
but the error only wraps the underlying lookup message in the fixed text
"Error analyzing portfolio: ...", so it names the failing symbol only
insofar as the lookup's own message does. -/
theorem portfolio_lookup_failure_aborts :
    ∀ (lookup : String → Except String StockQuote) (pre post : List Holding)
      (h : Holding) (m : String),
      (∀ h2 ∈ pre, isOkE (lookup h2.symbol) = true) →
      lookup h.symbol = .error m →
      analyze_portfolio lookup (pre ++ h :: post) =
        .error ("Error analyzing portfolio: " ++ m) :=
  fun lookup pre post h m hok hfail =>
    analyze_portfolio_abort lookup m pre h post hok hfail

/-- A lookup that fails on symbol BAD and succeeds elsewhere. -/
def failingLookup : String → Except String StockQuote := fun s =>
  if s = "BAD" then .error "no price data found"
  else .ok { currentPrice := 10, prevClose := 10, sector := some "Tech" }

/-- C8 witness: a three-holding portfolio whose middle lookup fails
aggregates to exactly the wrapped error. -/
theorem portfolio_lookup_failure_aborts_witness :
    analyze_portfolio failingLookup
        [{ symbol := "GOOD", shares := 1 }, { symbol := "BAD", shares := 2 },
          { symbol := "AFTER", shares := 3 }] =
      .error ("Error analyzing portfolio: " ++ "no price data found") :=
  portfolio_lookup_failure_aborts failingLookup [{ symbol := "GOOD", shares := 1 }]
    [{ symbol := "AFTER", shares := 3 }] { symbol := "BAD", shares := 2 } "no price data found"
    (by
      intro h2 hh
      rw [List.mem_singleton] at hh
      subst hh
      decide)
    (by rfl)

/-- A lookup that fails identically for every symbol. -/
def failAnyLookup : String → Except String StockQuote := fun _ =>
  .error "no price data found"

/-- C8 counterexample: aggregations failing on the distinct symbols AAA
and BBB produce the identical error value, so the aggregation error does
not name the failing symbol. -/
theorem portfolio_error_does_not_name_symbol :
    analyze_portfolio failAnyLookup [{ symbol := "AAA", shares := 1 }] =
      .error ("Error analyzing portfolio: " ++ "no price data found") ∧
    analyze_portfolio failAnyLookup [{ symbol := "BBB", shares := 1 }] =
      .error ("Error analyzing portfolio: " ++ "no price data found") ∧
    ("AAA" : String) ≠ "BBB" :=
  ⟨rfl, rfl, by decide⟩

/-- C10: a holding whose quote carries no sector classification is
classified under the literal sector name Unknown: its enriched record
gets sector Unknown, Unknown appears among the distribution's sector
keys, it appears in the sector list whose distinct count sets the risk
level, and the risk level is that count's bucket. -/
theorem portfolio_unknown_sector_classified :
    ∀ (lookup : String → StockQuote) (hs : List Holding) (h : Holding),
      h ∈ hs → (lookup h.symbol).sector = none →
      (enrichHolding (lookup h.symbol) h).sector = "Unknown" ∧
      "Unknown" ∈ keys (finalize (pureFold lookup hs)).sector_distribution ∧
      "Unknown" ∈ hs.map (fun h2 => (lookup h2.symbol).sector.getD "Unknown") ∧
      (finalize (pureFold lookup hs)).risk_level =
        (if ((hs.map (fun h2 => (lookup h2.symbol).sector.getD "Unknown")).toFinset).card < 3
         then "High"
         else if 5 < ((hs.map (fun h2 => (lookup h2.symbol).sector.getD "Unknown")).toFinset).card
         then "Low"
         else "Medium") := by
  intro lookup hs h hmem hsec
  have h1 : (enrichHolding (lookup h.symbol) h).sector = "Unknown" := by
    simp [enrichHolding, hsec]
  have h3 : "Unknown" ∈ hs.map (fun h2 => (lookup h2.symbol).sector.getD "Unknown") :=
    List.mem_map.mpr ⟨h, hmem, by simp [hsec]⟩
  have h2 : "Unknown" ∈ keys (finalize (pureFold lookup hs)).sector_distribution := by
    have hfin : (finalize (pureFold lookup hs)).sector_distribution =
        ((pureFold lookup hs).sector_distribution).map
          (fun p => (p.1, p.2 / (pureFold lookup hs).total_value * 100)) := rfl
    rw [hfin, keys_map_pct, pureFold_dist]
    rw [mem_keys_distFold]
    right
    rw [sectors_map]
    exact h3
  exact ⟨h1, h2, h3, finalize_pureFold_risk lookup hs⟩

/-- A quote stream with no sector classification at all. -/
def lookupNoSector : String → StockQuote := fun _ =>
  { currentPrice := 10, prevClose := 10, sector := none }

/-- C10 witness: a one-holding portfolio without sector classification is
bucketed under Unknown and (one distinct sector) rated High risk. -/
theorem portfolio_unknown_sector_classified_witness :
    (lookupNoSector "ZZZ").sector = none ∧
    "Unknown" ∈ keys (finalize (pureFold lookupNoSector [{ symbol := "ZZZ", shares := 1 }])).sector_distribution ∧
    (finalize (pureFold lookupNoSector [{ symbol := "ZZZ", shares := 1 }])).risk_level = "High" := by
  have happ := portfolio_unknown_sector_classified lookupNoSector
    [{ symbol := "ZZZ", shares := 1 }] { symbol := "ZZZ", shares := 1 }
    (List.mem_singleton.mpr rfl) rfl
  refine ⟨rfl, happ.2.1, ?_⟩
  rw [happ.2.2.2]
  simp [lookupNoSector]
